import Mathlib

/-!
Shallow embedding of the devimteam/consul configuration-sync library.

The embedding follows the current sources:
  * client.go      — Client.PullOrPush / pullOrPush / registerWatch /
                     makeConsulPath / makeTagOpts / defaultParser / updateWatch
  * watch_types.go — the watchable String / Duration / Int / Toml cells and the
                     well-known-type registrations
  * consul.go      — the older Client (typifyValue, getTagOptions)
  * consulKV       — the KV adapter (absent key ⇒ nil bytes)

Byte slices are modelled as Lean String (the Go code converts []byte to string
before every parse).  Machine integers are modelled as Int/Nat with explicit
range checks where the Go strconv functions perform them.  Floating point
values are represented symbolically by their source literal (no claim in this
development depends on float arithmetic).  reflect.Value.Set panics on a
dynamic-type mismatch; the model turns that panic into a distinguished error
string, which is enough to observe the divergence it causes.
-/

namespace ConsulSpec

/-! ### Character/string helpers (models of Go's strings/bytes packages) -/

/-- Model of unicode.IsSpace restricted to the code points Go's table contains
(Latin-1 part plus the White_Space ranges); used by bytes.TrimSpace. -/
def goIsSpace (c : Char) : Bool :=
  c = ' ' || c = '\t' || c = '\n' || c = '\u000b' || c = '\u000c' || c = '\r' ||
  c = '\u0085' || c = ' ' || c = ' ' ||
  (' ' ≤ c && c ≤ ' ') ||
  c = ' ' || c = ' ' || c = ' ' || c = ' ' || c = '　'

/-- bytes.TrimSpace: drop leading and trailing white space. -/
def goTrimSpace (s : String) : String :=
  String.mk (((s.toList.dropWhile goIsSpace).reverse.dropWhile goIsSpace).reverse)

/-- strings.Split with a one-character separator (always at least one piece). -/
def splitChar (sep : Char) : List Char → List (List Char)
  | [] => [[]]
  | c :: cs =>
    if c = sep then [] :: splitChar sep cs
    else
      match splitChar sep cs with
      | [] => [[c]]
      | h :: t => (c :: h) :: t

/-- strings.Split on a String, pieces as Strings. -/
def goSplit (s : String) (sep : Char) : List String :=
  (splitChar sep s.toList).map String.mk

/-- strings.SplitN(s, sep, 2): split at the first occurrence only. -/
def goSplitN2 (s : String) (sep : Char) : List String :=
  match splitChar sep s.toList with
  | [] => [s]
  | [one] => [String.mk one]
  | h :: t => [String.mk h, String.mk (List.intercalate [sep] t)]

/-- ASCII lower-casing of one character (Go's strings.ToLower also folds
non-ASCII letters, but no non-ASCII code point case-folds to the ASCII letters
of the recognized tag keys, so ASCII folding is an exact model here). -/
def lowerChar (c : Char) : Char :=
  if 'A' ≤ c && c ≤ 'Z' then Char.ofNat (c.toNat + 32) else c

/-- strings.ToLower (ASCII part, see lowerChar). -/
def goToLower (s : String) : String := String.mk (s.toList.map lowerChar)

/-! ### strconv models -/

def isDecDigit (c : Char) : Bool := '0' ≤ c && c ≤ '9'

def digitsToNat (l : List Char) : Nat :=
  l.foldl (fun acc c => acc * 10 + (c.toNat - '0'.toNat)) 0

/-- strconv.ParseBool. -/
def goParseBool (s : String) : Except String Bool :=
  if s = "1" || s = "t" || s = "T" || s = "TRUE" || s = "true" || s = "True" then
    .ok true
  else if s = "0" || s = "f" || s = "F" || s = "FALSE" || s = "false" || s = "False" then
    .ok false
  else .error ("strconv.ParseBool: parsing " ++ s ++ ": invalid syntax")

/-- strconv.ParseUint(s, 10, bits): no sign allowed, decimal digits, range
check against 2^bits. -/
def goParseUint (s : String) (bits : Nat) : Except String Nat :=
  let l := s.toList
  if l = [] then .error ("strconv.ParseUint: parsing " ++ s ++ ": invalid syntax")
  else if l.all isDecDigit then
    let n := digitsToNat l
    if n < 2 ^ bits then .ok n
    else .error ("strconv.ParseUint: parsing " ++ s ++ ": value out of range")
  else .error ("strconv.ParseUint: parsing " ++ s ++ ": invalid syntax")

/-- strconv.ParseInt(s, 10, bits): optional sign, decimal digits, range check
against the signed range of the given width. -/
def goParseInt (s : String) (bits : Nat) : Except String Int :=
  let l := s.toList
  let (neg, digits) :=
    match l with
    | '+' :: rest => (false, rest)
    | '-' :: rest => (true, rest)
    | rest => (false, rest)
  if digits = [] then .error ("strconv.ParseInt: parsing " ++ s ++ ": invalid syntax")
  else if digits.all isDecDigit then
    let n := digitsToNat digits
    if neg then
      if n ≤ 2 ^ (bits - 1) then .ok (-(n : Int))
      else .error ("strconv.ParseInt: parsing " ++ s ++ ": value out of range")
    else
      if n < 2 ^ (bits - 1) then .ok (n : Int)
      else .error ("strconv.ParseInt: parsing " ++ s ++ ": value out of range")
  else .error ("strconv.ParseInt: parsing " ++ s ++ ": invalid syntax")

/-- strconv.Atoi = ParseInt(s, 10, 0) with the platform int width (64 bit). -/
def goAtoi (s : String) : Except String Int := goParseInt s 64

/-- Symbolic carrier for Go float32/float64 values: a parsed float is
represented by its (trimmed) source literal; 0.0 is the zero value.  No claim
in this development depends on float arithmetic or on float equality between
distinct literals. -/
structure GoFloat where
  lit : String
deriving DecidableEq, Repr

def GoFloat.zero : GoFloat := ⟨"0"⟩

/-- Decimal-literal syntax accepted by strconv.ParseFloat (mantissa with
optional fraction, optional exponent, and the inf/nan forms; Go additionally
accepts hexadecimal floats, which no claim exercises). -/
def floatSyntaxOk (s : String) : Bool :=
  let l :=
    match s.toList with
    | '+' :: rest => rest
    | '-' :: rest => rest
    | rest => rest
  let lower := l.map lowerChar
  if lower = ['i', 'n', 'f'] || lower = ['i', 'n', 'f', 'i', 'n', 'i', 't', 'y'] ||
     lower = ['n', 'a', 'n'] then true
  else
    let intPart := l.takeWhile isDecDigit
    let rest1 := l.drop intPart.length
    let (fracPart, rest2) :=
      match rest1 with
      | '.' :: r => (r.takeWhile isDecDigit, r.drop (r.takeWhile isDecDigit).length)
      | r => ([], r)
    if intPart = [] && fracPart = [] then false
    else
      match rest2 with
      | [] => true
      | e :: r =>
        if e = 'e' || e = 'E' then
          let r2 := match r with
                    | '+' :: r3 => r3
                    | '-' :: r3 => r3
                    | r3 => r3
          r2 ≠ [] && r2.all isDecDigit
        else false

/-- strconv.ParseFloat, with the value kept symbolic (see GoFloat). -/
def goParseFloat (s : String) : Except String GoFloat :=
  if floatSyntaxOk s then .ok ⟨s⟩
  else .error ("strconv.ParseFloat: parsing " ++ s ++ ": invalid syntax")

/-! ### time.ParseDuration model (nanoseconds as Int) -/

def durationUnit (u : List Char) : Option Int :=
  if u = ['n', 's'] then some 1
  else if u = ['u', 's'] || u = ['µ', 's'] || u = ['μ', 's'] then some 1000
  else if u = ['m', 's'] then some 1000000
  else if u = ['s'] then some 1000000000
  else if u = ['m'] then some 60000000000
  else if u = ['h'] then some 3600000000000
  else none

/-- One number-and-unit chunk of a duration literal; Go computes the
fractional contribution through float64, modelled here as exact integer
division (no claim depends on sub-unit rounding). -/
def durationChunk (l : List Char) : Except String (Int × List Char) :=
  let intDigits := l.takeWhile isDecDigit
  let rest1 := l.drop intDigits.length
  let (fracDigits, rest2) :=
    match rest1 with
    | '.' :: r => (r.takeWhile isDecDigit, r.drop (r.takeWhile isDecDigit).length)
    | r => ([], r)
  if intDigits = [] && fracDigits = [] then
    .error "time: invalid duration"
  else
    let unit := rest2.takeWhile (fun c => !(isDecDigit c || c = '.'))
    let rest3 := rest2.drop unit.length
    if unit = [] then .error "time: missing unit in duration"
    else
      match durationUnit unit with
      | none => .error "time: unknown unit in duration"
      | some u =>
        let scale : Int := (10 : Int) ^ fracDigits.length
        .ok ((digitsToNat intDigits : Int) * u + ((digitsToNat fracDigits : Int) * u) / scale, rest3)

def durationLoop : List Char → Int → Nat → Except String Int
  | [], acc, _ => .ok acc
  | l, acc, fuel + 1 =>
    match durationChunk l with
    | .error e => .error e
    | .ok (v, rest) =>
      if rest.length < l.length then durationLoop rest (acc + v) fuel
      else .error "time: invalid duration"
  | _, _, 0 => .error "time: invalid duration"

/-- time.ParseDuration: optional sign, the special form 0, then one or more
number-unit chunks. -/
def goParseDuration (s : String) : Except String Int :=
  let l := s.toList
  let (neg, body) :=
    match l with
    | '+' :: rest => (false, rest)
    | '-' :: rest => (true, rest)
    | rest => (false, rest)
  if body = ['0'] then .ok 0
  else if body = [] then .error ("time: invalid duration " ++ s)
  else
    match durationLoop body 0 body.length with
    | .error e => .error e
    | .ok v => .ok (if neg then -v else v)

/-! ### time.Parse (RFC3339) and go-toml models, kept symbolic -/

/-- Symbolic carrier for time.Time: the accepted RFC3339 literal. -/
structure GoTime where
  lit : String
deriving DecidableEq, Repr

/-- Shape check for RFC3339 literals (date - 'T' - clock, optional fraction,
'Z' or a numeric zone).  Go additionally validates calendar ranges; no claim
depends on which nonempty literals are accepted, only on the parse occurring
(and on the empty string being rejected). -/
def rfc3339ShapeOk (s : String) : Bool :=
  let l := s.toList
  let dig2 (a b : Char) : Bool := isDecDigit a && isDecDigit b
  match l with
  | y1 :: y2 :: y3 :: y4 :: '-' :: m1 :: m2 :: '-' :: d1 :: d2 :: 'T' ::
    h1 :: h2 :: ':' :: mi1 :: mi2 :: ':' :: s1 :: s2 :: rest =>
    dig2 y1 y2 && dig2 y3 y4 && dig2 m1 m2 && dig2 d1 d2 &&
    dig2 h1 h2 && dig2 mi1 mi2 && dig2 s1 s2 &&
    (let (_, zone) :=
      match rest with
      | '.' :: r => (r.takeWhile isDecDigit, r.drop (r.takeWhile isDecDigit).length)
      | r => ([], r)
     match zone with
     | ['Z'] => true
     | sgn :: z1 :: z2 :: ':' :: z3 :: z4 :: [] =>
       (sgn = '+' || sgn = '-') && dig2 z1 z2 && dig2 z3 z4
     | _ => false)
  | _ => false

/-- time.Parse(time.RFC3339, s), value kept symbolic. -/
def goParseRFC3339 (s : String) : Except String GoTime :=
  if rfc3339ShapeOk s then .ok ⟨s⟩
  else .error ("parsing time " ++ s ++ " as RFC3339: cannot parse")

/-- Symbolic carrier for a go-toml tree: the raw document. -/
structure TomlTree where
  raw : String
deriving DecidableEq, Repr

/-- toml.LoadBytes, kept symbolic (syntax validation abstracted away: no claim
in this development depends on which documents go-toml rejects). -/
def tomlLoadBytes (raw : String) : Except String TomlTree := .ok ⟨raw⟩

/-! ### Watchable cells (watch_types.go)

Each cell wraps an atomic.Value; the stored payload is modelled as an Option
(none = nothing stored yet, the zero cell).  Go's Updatable interface is
`Update([]byte) error`; an Update that fails must leave the stored payload
as it was, which the model makes observable by returning the cell state: an
update is `cell → (cell, optional error)`. -/

structure StringCell where
  v : Option String
deriving DecidableEq, Repr

/-- String.Update: stores the raw bytes, never fails. -/
def StringCell.Update (_c : StringCell) (raw : String) : StringCell × Option String :=
  (⟨some raw⟩, none)

/-- String.String(): the reader (Load); none models the nil zero cell. -/
def StringCell.str (c : StringCell) : Option String := c.v

structure DurationCell where
  v : Option Int
deriving DecidableEq, Repr

/-- Duration.Update: time.ParseDuration, store only on success. -/
def DurationCell.Update (c : DurationCell) (raw : String) : DurationCell × Option String :=
  match goParseDuration raw with
  | .error e => (c, some e)
  | .ok dur => (⟨some dur⟩, none)

/-- Duration.Duration(): the reader (Load). -/
def DurationCell.dur (c : DurationCell) : Option Int := c.v

structure IntCell where
  v : Option Int
deriving DecidableEq, Repr

/-- Int.Update: strconv.Atoi, store only on success. -/
def IntCell.Update (c : IntCell) (raw : String) : IntCell × Option String :=
  match goAtoi raw with
  | .error e => (c, some e)
  | .ok i => (⟨some i⟩, none)

/-- Int.Int(): the reader (Load). -/
def IntCell.int (c : IntCell) : Option Int := c.v

structure TomlCell where
  v : Option TomlTree
deriving DecidableEq, Repr

/-- Toml.Update (via the unexported update): LoadBytes, store on success. -/
def TomlCell.Update (c : TomlCell) (raw : String) : TomlCell × Option String :=
  match tomlLoadBytes raw with
  | .error e => (c, some e)
  | .ok tree => (⟨some tree⟩, none)

/-! ### Tag options: makeTagOpts (client.go) and getTagOptions (consul.go) -/

structure TagOpts where
  Name : Option String := none
  Default : Option String := none
deriving DecidableEq, Repr

/-- The body of makeTagOpts's loop for one `;`-separated segment. -/
def makeTagOptsStep (acc : TagOpts) (seg : String) : TagOpts :=
  match goSplitN2 seg ':' with
  | [k, v] =>
    if goToLower k = "default" then { acc with Default := some v }
    else if goToLower k = "name" then { acc with Name := some v }
    else acc
  | _ => acc

/-- makeTagOpts: split the tag on `;`, recognize name:/default: segments
(keys lower-cased), skip everything else.  No error path. -/
def makeTagOpts (scope : String) : TagOpts :=
  (goSplit scope ';').foldl makeTagOptsStep {}

/-- The word-character class of the tag-option regexp: [0-9A-Za-z_]. -/
def wordChar (c : Char) : Bool :=
  (isDecDigit c) || ('a' ≤ c && c ≤ 'z') || ('A' ≤ c && c ≤ 'Z') || c = '_'

/-- Whole-string match of the anchored regexp ([\w]+):(.+) used by
getTagOptions: a nonempty word-character key, a colon, a nonempty value. -/
def tagOptionMatch (s : String) : Option (String × String) :=
  let l := s.toList
  let w := l.takeWhile wordChar
  match l.drop w.length with
  | ':' :: v => if w ≠ [] && v ≠ [] then some (String.mk w, String.mk v) else none
  | _ => none

def allowOptions : List String := ["name", "default"]

/-- allowOption: exact (case-sensitive) membership in the allowed keys. -/
def allowOption (name : String) : Bool := allowOptions.contains name

/-- Map insert for the small string map of getTagOptions. -/
def mapInsert (m : List (String × String)) (k v : String) : List (String × String) :=
  (k, v) :: m.filter (fun e => !(e.1 = k))

/-- The body of getTagOptions's loop for one segment. -/
def getTagOptionsStep (res : List (String × String)) (option : String) :
    List (String × String) :=
  match tagOptionMatch option with
  | some (k, val) => if allowOption k then mapInsert res k val else res
  | none => res

/-- getTagOptions (consul.go): regexp-matched segments with an allowed key go
into the result map; everything else is skipped; the error result is always
nil (modelled as the second component, always none). -/
def getTagOptions (v : String) : List (String × String) × Option String :=
  if v = "" then ([], none)
  else ((goSplit v ';').foldl getTagOptionsStep [], none)

/-! ### path.Join / path.Clean -/

def joinSlash : List (List Char) → List Char
  | [] => []
  | [x] => x
  | x :: xs => x ++ '/' :: joinSlash xs

/-- path.Clean: drop empty and `.` segments, resolve `..`. -/
def goPathClean (p : String) : String :=
  if p = "" then "."
  else
    let l := p.toList
    let rooted := l.head? = some '/'
    let segs := splitChar '/' l
    let out := segs.foldl (fun acc seg =>
      if seg = [] || seg = ['.'] then acc
      else if seg = ['.', '.'] then
        match acc with
        | [] => if rooted then [] else [seg]
        | a :: rest => if a = ['.', '.'] then seg :: a :: rest else rest
      else seg :: acc) []
    let joined := joinSlash out.reverse
    if rooted then String.mk ('/' :: joined)
    else if joined = [] then "." else String.mk joined

/-- path.Join of two elements: skip leading empties, then Clean. -/
def goPathJoin (a b : String) : String :=
  if a ≠ "" then goPathClean (a ++ "/" ++ b)
  else if b ≠ "" then goPathClean b
  else ""

/-! ### The schema type model

A Go type as the engine sees it through reflect: its exact identity (needed
for the well-known-type registry) and its reflect.Kind.  The well-known types
registered at process start (watch_types.go and the time registrations) get
their own identities; a generic struct carries its exported fields as
(name, consul-tag, type) triples. -/

inductive WellKnown where
  | wkString      -- consul.String (watchable string cell)
  | wkDuration    -- consul.Duration (watchable duration cell)
  | wkInt         -- consul.Int (watchable int cell)
  | wkToml        -- consul.Toml (watchable toml cell)
  | wkTime        -- time.Time
  | wkGoDuration  -- time.Duration
deriving DecidableEq, Repr

inductive GoType where
  | tString | tBool
  | tFloat32 | tFloat64
  | tInt | tInt16 | tInt32 | tInt64
  | tUInt | tUInt32 | tUInt64
  | tByteSlice
  | tWellKnown (w : WellKnown)
  | tStruct (fields : List (String × String × GoType))
deriving Repr

inductive GoKind where
  | kString | kBool
  | kFloat32 | kFloat64
  | kInt | kInt16 | kInt32 | kInt64
  | kUInt | kUInt32 | kUInt64
  | kSlice | kStruct
deriving DecidableEq, Repr

/-- reflect.Kind of each modelled type (the cells and time.Time are structs;
time.Duration is an int64). -/
def GoType.kind : GoType → GoKind
  | .tString => .kString
  | .tBool => .kBool
  | .tFloat32 => .kFloat32
  | .tFloat64 => .kFloat64
  | .tInt => .kInt
  | .tInt16 => .kInt16
  | .tInt32 => .kInt32
  | .tInt64 => .kInt64
  | .tUInt => .kUInt
  | .tUInt32 => .kUInt32
  | .tUInt64 => .kUInt64
  | .tByteSlice => .kSlice
  | .tWellKnown .wkGoDuration => .kInt64
  | .tWellKnown _ => .kStruct
  | .tStruct _ => .kStruct

/-- t.Elem().Kind() == reflect.Uint8 for slice types ([]byte is the only
slice type in the model, so this is constantly true on slices; the source
check is kept anyway). -/
def sliceElemIsByte : GoType → Bool
  | .tByteSlice => true
  | _ => false

/-- Runtime values, tagged with the dynamic type the Go interface would hold.
Note vInt is produced both for int fields and by the untyped `return 0, nil`
of defaultParser's Uint64 empty case. -/
inductive GoValue where
  | vString (s : String)
  | vBool (b : Bool)
  | vFloat32 (f : GoFloat)
  | vFloat64 (f : GoFloat)
  | vInt (n : Int) | vInt16 (n : Int) | vInt32 (n : Int) | vInt64 (n : Int)
  | vUInt (n : Nat) | vUInt32 (n : Nat) | vUInt64 (n : Nat)
  | vBytes (b : String)
  | vStringCell (c : StringCell)
  | vDurationCell (c : DurationCell)
  | vIntCell (c : IntCell)
  | vTomlCell (c : TomlCell)
  | vTime (t : GoTime)
  | vGoDuration (d : Int)
  | vStruct (fields : List GoValue)
deriving Repr

mutual
/-- The Go zero value of a type. -/
def zeroValue : GoType → GoValue
  | .tString => .vString ""
  | .tBool => .vBool false
  | .tFloat32 => .vFloat32 GoFloat.zero
  | .tFloat64 => .vFloat64 GoFloat.zero
  | .tInt => .vInt 0
  | .tInt16 => .vInt16 0
  | .tInt32 => .vInt32 0
  | .tInt64 => .vInt64 0
  | .tUInt => .vUInt 0
  | .tUInt32 => .vUInt32 0
  | .tUInt64 => .vUInt64 0
  | .tByteSlice => .vBytes ""
  | .tWellKnown .wkString => .vStringCell ⟨none⟩
  | .tWellKnown .wkDuration => .vDurationCell ⟨none⟩
  | .tWellKnown .wkInt => .vIntCell ⟨none⟩
  | .tWellKnown .wkToml => .vTomlCell ⟨none⟩
  | .tWellKnown .wkTime => .vTime ⟨""⟩
  | .tWellKnown .wkGoDuration => .vGoDuration 0
  | .tStruct fs => .vStruct (zeroValues fs)

def zeroValues : List (String × String × GoType) → List GoValue
  | [] => []
  | f :: rest => zeroValue f.2.2 :: zeroValues rest
end

/-! ### The well-known-type registry (init functions of watch_types.go and
the time registrations): exact type identity → CustomParser. -/

/-- watchableString: a fresh cell updated with the raw bytes (String.Update
never fails). -/
def watchableString (_path : String) (raw : String) : Except String GoValue :=
  let (c, e) := StringCell.Update ⟨none⟩ raw
  match e with
  | some err => .error err
  | none => .ok (.vStringCell c)

/-- watchableDuration: a fresh cell updated with the raw bytes; the parse
error of Duration.Update is returned to the engine. -/
def watchableDuration (_path : String) (raw : String) : Except String GoValue :=
  let (c, e) := DurationCell.Update ⟨none⟩ raw
  match e with
  | some err => .error err
  | none => .ok (.vDurationCell c)

/-- watchableInt: a fresh cell updated with the raw bytes. -/
def watchableInt (_path : String) (raw : String) : Except String GoValue :=
  let (c, e) := IntCell.Update ⟨none⟩ raw
  match e with
  | some err => .error err
  | none => .ok (.vIntCell c)

/-- tomlConfig: on an update error the parser returns nil and the error. -/
def tomlConfig (_path : String) (raw : String) : Except String GoValue :=
  let (c, e) := TomlCell.Update ⟨none⟩ raw
  match e with
  | some err => .error err
  | none => .ok (.vTomlCell c)

/-- timeTime: time.Parse(time.RFC3339, content). -/
def timeTime (_path : String) (raw : String) : Except String GoValue :=
  match goParseRFC3339 raw with
  | .error e => .error e
  | .ok t => .ok (.vTime t)

/-- timeDuration: time.ParseDuration(content). -/
def timeDuration (_path : String) (raw : String) : Except String GoValue :=
  match goParseDuration raw with
  | .error e => .error e
  | .ok d => .ok (.vGoDuration d)

/-- The parser registered for each well-known type identity. -/
def wellKnownFn : WellKnown → (String → String → Except String GoValue)
  | .wkString => watchableString
  | .wkDuration => watchableDuration
  | .wkInt => watchableInt
  | .wkToml => tomlConfig
  | .wkTime => timeTime
  | .wkGoDuration => timeDuration

/-- wellKnowTypeParsers after all init registrations: the four watchable cell
types plus time.Time and time.Duration. -/
def wellKnowTypeParsers : GoType → Option (String → String → Except String GoValue)
  | .tWellKnown w => some (wellKnownFn w)
  | _ => none

/-! ### defaultParser (client.go) and typifyValue (consul.go) -/

/-- defaultParser: trim the content, then dispatch on the reflect.Kind.
Mirrors the source case by case, including the untyped `return 0, nil` of the
Uint64 empty branch (an int-typed interface value). -/
def defaultParser (t : GoType) (value0 : String) : Except String GoValue :=
  let value := goTrimSpace value0
  match t.kind with
  | .kString => .ok (.vString value)
  | .kFloat32 =>
    if value = "" then .ok (.vFloat32 GoFloat.zero)
    else (goParseFloat value).map .vFloat32
  | .kFloat64 =>
    if value = "" then .ok (.vFloat64 GoFloat.zero)
    else (goParseFloat value).map .vFloat64
  | .kInt =>
    if value = "" then .ok (.vInt 0)
    else (goParseInt value 64).map .vInt
  | .kInt16 =>
    if value = "" then .ok (.vInt16 0)
    else (goParseInt value 16).map .vInt16
  | .kInt32 =>
    if value = "" then .ok (.vInt32 0)
    else (goParseInt value 32).map .vInt32
  | .kInt64 =>
    if value = "" then .ok (.vInt64 0)
    else (goParseInt value 64).map .vInt64
  | .kUInt =>
    if value = "" then .ok (.vUInt 0)
    else (goParseUint value 64).map .vUInt
  | .kUInt32 =>
    if value = "" then .ok (.vUInt32 0)
    else (goParseUint value 32).map .vUInt32
  | .kUInt64 =>
    if value = "" then .ok (.vInt 0)   -- source: `return 0, nil` (untyped int!)
    else (goParseUint value 64).map .vUInt64
  | .kBool => (goParseBool value).map .vBool
  | .kSlice =>
    if sliceElemIsByte t then .ok (.vBytes value)
    else .error "[]T is not supported"
  | .kStruct => .error "can not find parser"

/-- typifyValue (consul.go): the older engine's coercion; only String,
Float32, Float64, Int, Bool, the Map fall-through, and time.Duration are
supported.  Note the numeric cases trim inside the parse call only. -/
def typifyValue (t : GoType) (value : String) : Except String GoValue :=
  match t.kind with
  | .kString => .ok (.vString value)
  | .kFloat32 =>
    if value = "" then .ok (.vFloat32 GoFloat.zero)
    else (goParseFloat (goTrimSpace value)).map .vFloat32
  | .kFloat64 =>
    if value = "" then .ok (.vFloat64 GoFloat.zero)
    else (goParseFloat (goTrimSpace value)).map .vFloat64
  | .kInt =>
    if value = "" then .ok (.vInt 0)
    else (goParseInt (goTrimSpace value) 64).map .vInt
  | .kBool => (goParseBool value).map .vBool
  | _ =>
    match t with
    | .tWellKnown .wkGoDuration => (goParseInt (goTrimSpace value) 64).map .vGoDuration
    | _ => .error "unsupported type"

/-- reflect assignability of an interface value to a field type (dst.Set
panics when this is false). -/
def assignable : GoType → GoValue → Bool
  | .tString, .vString _ => true
  | .tBool, .vBool _ => true
  | .tFloat32, .vFloat32 _ => true
  | .tFloat64, .vFloat64 _ => true
  | .tInt, .vInt _ => true
  | .tInt16, .vInt16 _ => true
  | .tInt32, .vInt32 _ => true
  | .tInt64, .vInt64 _ => true
  | .tUInt, .vUInt _ => true
  | .tUInt32, .vUInt32 _ => true
  | .tUInt64, .vUInt64 _ => true
  | .tByteSlice, .vBytes _ => true
  | .tWellKnown .wkString, .vStringCell _ => true
  | .tWellKnown .wkDuration, .vDurationCell _ => true
  | .tWellKnown .wkInt, .vIntCell _ => true
  | .tWellKnown .wkToml, .vTomlCell _ => true
  | .tWellKnown .wkTime, .vTime _ => true
  | .tWellKnown .wkGoDuration, .vGoDuration _ => true
  | _, _ => false

/-! ### The store and the KV adapter (consulKV)

The real store distinguishes an absent key from a present key; consulKV.Get
returns nil bytes for an absent key (pair == nil) and pair.Value otherwise,
so the engine sees "" in both cases.  The store is an association list where
a put shadows older entries.  Network failures of the engine's Get/Put are
outside the modelled state (they abort the sync with a wrapped error and no
claim here depends on them); the refresher's KV below does model Get
failures, which claim C5 is about. -/

def Store : Type := List (String × String)

/-- Whether a key is present in the store. -/
def Store.contains (st : Store) (p : String) : Bool :=
  (List.find? (fun e => e.1 = p) st).isSome

/-- consulKV.Get: pair == nil (absent) ⇒ nil bytes, else the stored value. -/
def Store.getKV (st : Store) (p : String) : String :=
  match List.find? (fun e => e.1 = p) st with
  | none => ""
  | some e => e.2

/-- consulKV.Put. -/
def Store.putKV (st : Store) (p v : String) : Store := (p, v) :: st

/-- Store interactions the engine performs, in order (registerWatch appends
are recorded as reg events so the trace determines the watch list). -/
inductive KVEvent where
  | get (p : String) (content : String)
  | put (p : String) (v : String)
  | reg (p : String)
deriving DecidableEq, Repr

/-- A registered watch item: the consul path and the Updatable target it
points at (only the four watchable cell types implement Updatable; the
target is a pointer into the schema value, identified here by its cell
type). -/
structure WatchItem where
  path : String
  target : WellKnown
deriving DecidableEq, Repr

/-- Which field types expose the Updatable capability (Update is declared on
the pointer receivers of the four cells; time.Time and time.Duration have no
Update method, and neither do plain scalars or generic structs). -/
def updatableWK : GoType → Option WellKnown
  | .tWellKnown .wkString => some .wkString
  | .tWellKnown .wkDuration => some .wkDuration
  | .tWellKnown .wkInt => some .wkInt
  | .tWellKnown .wkToml => some .wkToml
  | _ => none

/-- Client options relevant to the sync engine (client.go options struct). -/
structure Opts where
  onlyPull : Bool
  disableListen : Bool
  normalizer : String → String

/-- makeConsulPath: tag name override or the normalized field name, joined
under the parent prefix. -/
def makeConsulPath (o : Opts) (pref : String) (fieldName fieldTag : String) : String :=
  let tagOpts := makeTagOpts fieldTag
  let kName := match tagOpts.Name with
               | none => o.normalizer fieldName
               | some n => n
  goPathJoin pref kName

/-- The default from the field tag, if the engine was given a StructField
(nil at the root). -/
def tagDefaultOf (structTag : Option String) : Option String :=
  match structTag with
  | none => none
  | some tag => (makeTagOpts tag).Default

/-- The inner guard of the provisioning branch: the field is a leaf from the
engine's point of view — its exact type is registered as well-known, or its
reflect.Kind is not Struct. -/
def putEligible (t : GoType) : Bool :=
  (wellKnowTypeParsers t).isSome || !(t.kind = GoKind.kStruct)

/-- The full provisioning guard of pullOrPush: pull-only off, probed content
empty, leaf field. -/
def doPutFlag (o : Opts) (t : GoType) (c0 : String) : Bool :=
  !o.onlyPull && c0 = "" && putEligible t

/-- registerWatch as a value: the item appended for this field, if listening
is enabled and the field's (addressable) type implements Updatable. -/
def regOf (o : Opts) (t : GoType) (p : String) : Option WatchItem :=
  if !o.disableListen then (updatableWK t).map (fun w => WatchItem.mk p w) else none

/-- The field values a struct-typed destination currently holds. -/
def curValsOf : GoValue → List GoValue
  | .vStruct vs => vs
  | _ => []

/-- The content pullOrPush parses: the probed bytes, or the tag default (or
empty payload) when the provisioning branch fired. -/
def provContent (o : Opts) (t : GoType) (tag : Option String) (c0 : String) : String :=
  if doPutFlag o t c0 then (tagDefaultOf tag).getD c0 else c0

/-- Result of one pullOrPush call: the (possibly partially) assigned value,
the store after any provisioning puts, the ordered interaction trace, the
watch list, and the error (none = nil). -/
structure SyncResult where
  value : GoValue
  store : Store
  trace : List KVEvent
  watch : List WatchItem
  err : Option String

/-- Result of the struct-field loop. -/
structure FieldsResult where
  values : List GoValue
  store : Store
  trace : List KVEvent
  watch : List WatchItem
  err : Option String

mutual
/-- pullOrPush (client.go, lines 110–165): probe the path; when pull-only is
off, the content is empty and the field is a leaf (registered well-known type
or not struct-shaped), provision the tag default (or the empty payload);
register a watch when listening is on and the field is Updatable; then either
run the registered well-known parser, recurse into a generic struct, or run
defaultParser and assign. -/
def pullOrPush (o : Opts) (consulPath : String) (t : GoType) (cur : GoValue)
    (structTag : Option String) (st : Store) (wl : List WatchItem) : SyncResult :=
  let content0 := st.getKV consulPath
  let doPut := doPutFlag o t content0
  let content := if doPut then (tagDefaultOf structTag).getD content0 else content0
  let st1 := if doPut then st.putKV consulPath content else st
  let ev1 := if doPut then [KVEvent.get consulPath content0, KVEvent.put consulPath content]
             else [KVEvent.get consulPath content0]
  let regItem := regOf o t consulPath
  let wl1 := wl ++ regItem.toList
  let ev2 := ev1 ++ (regItem.map (fun it => KVEvent.reg it.path)).toList
  match wellKnowTypeParsers t with
  | some fn =>
    match fn consulPath content with
    | .error e => ⟨cur, st1, ev2, wl1, some e⟩
    | .ok v => ⟨v, st1, ev2, wl1, none⟩
  | none =>
    match t with
    | .tStruct fs =>
      let r := pullOrPushFields o consulPath fs (curValsOf cur) st1 wl1
      ⟨.vStruct r.values, r.store, ev2 ++ r.trace, r.watch, r.err⟩
    | _ =>
      match defaultParser t content with
      | .error e => ⟨cur, st1, ev2, wl1, some e⟩
      | .ok v =>
        if assignable t v then ⟨v, st1, ev2, wl1, none⟩
        else ⟨cur, st1, ev2, wl1, some "reflect: Set of inassignable value"⟩

/-- The struct case of pullOrPush: fields in declared order, each with its
computed consul path and its own StructField tag; the first failing field
aborts the loop (fields after it keep their current values).  The source
skips fields with CanSet() == false (unexported); modelled schemas carry
only exported (settable) fields. -/
def pullOrPushFields (o : Opts) (parent : String)
    (fs : List (String × String × GoType)) (curs : List GoValue)
    (st : Store) (wl : List WatchItem) : FieldsResult :=
  match fs with
  | [] => ⟨[], st, [], wl, none⟩
  | (fname, ftag, ftype) :: rest =>
    let cur0 := curs.headD (zeroValue ftype)
    let r := pullOrPush o (makeConsulPath o parent fname ftag) ftype cur0 (some ftag) st wl
    match r.err with
    | some e => ⟨r.value :: curs.tail, r.store, r.trace, r.watch, some e⟩
    | none =>
      let rr := pullOrPushFields o parent rest curs.tail r.store r.watch
      ⟨r.value :: rr.values, rr.store, r.trace ++ rr.trace, rr.watch, rr.err⟩
end

/-! ### The watch refresher (updateWatch, client.go lines 309–322)

The background loop calls updateWatch once per tick; each registered item's
path is fetched and the target's Update is invoked with the raw bytes.  The
store Get may fail here (a network error), so the KV is modelled as a
function that may return an error.  Failures are reported to the logger (the
sink), modelled as the returned list of (path, error) entries; updateWatch
itself returns nothing to any caller. -/

/-- A live Updatable target (one of the four watchable cells). -/
inductive Cell where
  | cString (c : StringCell)
  | cDuration (c : DurationCell)
  | cInt (c : IntCell)
  | cToml (c : TomlCell)
deriving DecidableEq, Repr

/-- Dispatch of Update over the cell types (state passing: the returned cell
is the stored state after the call). -/
def Cell.update : Cell → String → Cell × Option String
  | .cString c, raw => let (c2, e) := c.Update raw; (.cString c2, e)
  | .cDuration c, raw => let (c2, e) := c.Update raw; (.cDuration c2, e)
  | .cInt c, raw => let (c2, e) := c.Update raw; (.cInt c2, e)
  | .cToml c, raw => let (c2, e) := c.Update raw; (.cToml c2, e)

/-- One entry of c.watch.list as the refresher sees it: the path and the
current state of the target it points at. -/
structure RefreshItem where
  path : String
  target : Cell
deriving DecidableEq, Repr

/-- The KV used by the refresher; Get may fail with a network error. -/
def KVFun : Type := String → Except String String

/-- The body of updateWatch's loop for a single item: on a Get error, log and
leave the target alone (continue); otherwise Update the target, logging a
failed update (whose cell state is whatever Update left behind). -/
def updateWatchStep (kvget : KVFun) (item : RefreshItem) :
    RefreshItem × List (String × String) :=
  match kvget item.path with
  | .error e => (item, [(item.path, e)])
  | .ok raw =>
    match item.target.update raw with
    | (c2, some e) => ({ item with target := c2 }, [(item.path, e)])
    | (c2, none) => ({ item with target := c2 }, [])

/-- updateWatch: iterate the whole watch list in order; every item is
processed; the function returns no error and never drops an item. -/
def updateWatch (kvget : KVFun) : List RefreshItem → List RefreshItem × List (String × String)
  | [] => ([], [])
  | item :: rest =>
    let (item2, lg) := updateWatchStep kvget item
    let (rest2, lgs) := updateWatch kvget rest
    (item2 :: rest2, lg ++ lgs)

/-! ### Support definitions for the claim statements -/

/-- A concrete (pluggable) key normalizer: the identity.  The engine's
normalizer is a configuration hook (Normalizer option), so any concrete
choice yields a legal client. -/
def identNormalizer (s : String) : String := s

/-- Options of a client with provisioning and listening on. -/
def syncOpts : Opts := ⟨false, false, identNormalizer⟩

/-- Options of a client built with OnlyPull and DisableWatch. -/
def pullOnlyOpts : Opts := ⟨true, true, identNormalizer⟩

/-- Options of a client with provisioning on and listening off. -/
def pushNoListenOpts : Opts := ⟨false, true, identNormalizer⟩

/-- The paths of the registerWatch appends recorded in a trace. -/
def tracedRegs (tr : List KVEvent) : List String :=
  tr.filterMap fun ev =>
    match ev with
    | .reg p => some p
    | _ => none

/-- A `;`-segment that makeTagOpts acts on: it splits on its first `:` and
its lower-cased key is name or default. -/
def recognizedTagSeg (seg : String) : Bool :=
  match goSplitN2 seg ':' with
  | [k, _] => goToLower k = "default" || goToLower k = "name"
  | _ => false

/-- A concrete refresher KV for witnesses: the key a fails with a network
error, every other key holds the bytes 5s. -/
def demoKV : KVFun := fun p => if p = "a" then .error "boom" else .ok "5s"

/-- A concrete watch list for witnesses: two Duration cells. -/
def demoItems : List RefreshItem :=
  [⟨"a", .cDuration ⟨none⟩⟩, ⟨"b", .cDuration ⟨none⟩⟩]

mutual
/-- Types whose leaves all coerce empty content to the zero value without
error: every scalar kind except Bool (ParseBool rejects empty input) and
except Uint64 (whose empty case produces an int-typed zero that the
reflective assignment rejects), and structs of such. -/
def emptyPullSafe : GoType → Bool
  | .tString | .tByteSlice
  | .tFloat32 | .tFloat64
  | .tInt | .tInt16 | .tInt32 | .tInt64
  | .tUInt | .tUInt32 => true
  | .tStruct fs => emptyPullSafeFields fs
  | _ => false

def emptyPullSafeFields : List (String × String × GoType) → Bool
  | [] => true
  | f :: rest => emptyPullSafe f.2.2 && emptyPullSafeFields rest
end

/-- Scalar kinds whose coercion maps empty content to the zero value without
error (boolean and uint64 excepted, see claim C1). -/
def scalarEmptyZero : GoType → Bool
  | .tString | .tByteSlice
  | .tFloat32 | .tFloat64
  | .tInt | .tInt16 | .tInt32 | .tInt64
  | .tUInt | .tUInt32 => true
  | _ => false

/-! ### C1 — empty content and the type's zero value -/

/-- C1 (amended): for the scalar kinds string, byte sequence, float32/64,
int/int16/int32/int64, uint and uint32, empty raw content coerces to the
type's zero value with no error and no parse, in defaultParser and (for the
kinds it supports) in typifyValue.  The claim's remaining kinds diverge:
boolean content is always handed to ParseBool (which rejects ""), and the
uint64 empty case returns an int-typed zero. -/
theorem claim1_empty_content :
    (∀ t, scalarEmptyZero t = true → defaultParser t "" = .ok (zeroValue t)) ∧
    typifyValue .tString "" = .ok (zeroValue .tString) ∧
    typifyValue .tFloat32 "" = .ok (zeroValue .tFloat32) ∧
    typifyValue .tFloat64 "" = .ok (zeroValue .tFloat64) ∧
    typifyValue .tInt "" = .ok (zeroValue .tInt) := by
  refine ⟨?_, rfl, rfl, rfl, rfl⟩
  intro t h
  cases t <;> first
    | rfl
    | simp [scalarEmptyZero] at h

/-- C1 witness: the string kind, evaluated. -/
theorem claim1_empty_content_witness :
    defaultParser GoType.tString "" = .ok (zeroValue GoType.tString) :=
  claim1_empty_content.1 GoType.tString rfl

/-- C1 counterexample: a boolean leaf with empty content does not get the
zero value — defaultParser forwards "" to ParseBool, which fails (typifyValue
behaves the same way). -/
theorem claim1_counterexample :
    defaultParser GoType.tBool "" =
      .error "strconv.ParseBool: parsing : invalid syntax" ∧
    typifyValue GoType.tBool "" =
      .error "strconv.ParseBool: parsing : invalid syntax" ∧
    defaultParser GoType.tUInt64 "" = .ok (GoValue.vInt 0) :=
  ⟨rfl, rfl, rfl⟩

/-! ### C7 — byte-sequence leaves -/

/-- C7 (amended): a []byte leaf is assigned the fetched bytes after
bytes.TrimSpace (defaultParser trims before dispatching on the kind), not the
raw bytes unchanged. -/
theorem claim7_bytes_trimmed (raw : String) :
    defaultParser GoType.tByteSlice raw = .ok (.vBytes (goTrimSpace raw)) := rfl

/-- C7 counterexample: content " a " is assigned as "a" — surrounding
whitespace in the stored value is not preserved. -/
theorem claim7_counterexample :
    defaultParser GoType.tByteSlice " a " = .ok (GoValue.vBytes "a") ∧
    ("a" : String) ≠ " a " :=
  ⟨rfl, by decide⟩

/-! ### C9 — failed cell updates leave the stored value unchanged -/

/-- C9: Duration.Update and Int.Update return the parse error and do not
store, so the cell state — and what a reader (Duration()/Int()) loads — is
the same before and after the failed update. -/
theorem claim9_failed_update_keeps_value :
    (∀ (c : DurationCell) raw e, goParseDuration raw = .error e →
       DurationCell.Update c raw = (c, some e) ∧
       (DurationCell.Update c raw).1.dur = c.dur) ∧
    (∀ (c : IntCell) raw e, goAtoi raw = .error e →
       IntCell.Update c raw = (c, some e) ∧
       (IntCell.Update c raw).1.int = c.int) := by
  constructor
  · intro c raw e h
    constructor <;> simp [DurationCell.Update, h]
  · intro c raw e h
    constructor <;> simp [IntCell.Update, h]

/-- C9 witness: updating a Duration cell holding 7ns with garbage fails and
keeps the 7. -/
theorem claim9_failed_update_keeps_value_witness :
    DurationCell.Update ⟨some 7⟩ "abc" = (⟨some 7⟩, some "time: invalid duration") ∧
    IntCell.Update ⟨some 7⟩ "x1" = (⟨some 7⟩, some "strconv.ParseInt: parsing x1: invalid syntax") :=
  ⟨(claim9_failed_update_keeps_value.1 ⟨some 7⟩ "abc" _ rfl).1,
   (claim9_failed_update_keeps_value.2 ⟨some 7⟩ "x1" _ rfl).1⟩

/-! ### C8 — tag annotation parsing never fails -/

/-- C8: both tag parsers are total and silently skip junk.  makeTagOpts
leaves its accumulator untouched on any segment without a recognized
(case-insensitively compared) key, and yields the empty options record when
no segment is recognized; getTagOptions always returns a nil error and skips
segments its regexp rejects or whose key is not allowed. -/
theorem claim8_tag_options :
    (∀ acc seg, recognizedTagSeg seg = false → makeTagOptsStep acc seg = acc) ∧
    (∀ scope, (∀ seg ∈ goSplit scope ';', recognizedTagSeg seg = false) →
       makeTagOpts scope = {}) ∧
    (∀ v, (getTagOptions v).2 = none) ∧
    (∀ res opt, tagOptionMatch opt = none → getTagOptionsStep res opt = res) ∧
    (∀ res opt k val, tagOptionMatch opt = some (k, val) → allowOption k = false →
       getTagOptionsStep res opt = res) := by
  have hstep : ∀ acc seg, recognizedTagSeg seg = false → makeTagOptsStep acc seg = acc := by
    intro acc seg h
    unfold recognizedTagSeg at h
    unfold makeTagOptsStep
    cases h2 : goSplitN2 seg ':' with
    | nil => simp
    | cons k rest =>
      cases rest with
      | nil => simp
      | cons v rest2 =>
        cases rest2 with
        | nil =>
          rw [h2] at h
          simp only [Bool.or_eq_false_iff, decide_eq_false_iff_not] at h
          simp [h.1, h.2]
        | cons a b => simp
  refine ⟨hstep, ?_, ?_, ?_, ?_⟩
  · intro scope hall
    unfold makeTagOpts
    have : ∀ (l : List String) (acc : TagOpts),
        (∀ seg ∈ l, recognizedTagSeg seg = false) → l.foldl makeTagOptsStep acc = acc := by
      intro l
      induction l with
      | nil => intro acc _; rfl
      | cons s rest ih =>
        intro acc hl
        rw [List.foldl_cons, hstep acc s (hl s (by simp))]
        exact ih acc (fun seg hseg => hl seg (by simp [hseg]))
    exact this _ {} hall
  · intro v
    unfold getTagOptions
    split <;> rfl
  · intro res opt h
    simp [getTagOptionsStep, h]
  · intro res opt k val h hk
    simp [getTagOptionsStep, h, hk]

/-- C8 witness: a tag made only of junk segments yields the empty record,
and getTagOptions returns its nil error on arbitrary input. -/
theorem claim8_tag_options_witness :
    makeTagOpts "junk;:x;name" = {} ∧ (getTagOptions "NAME c;;zzz").2 = none :=
  ⟨claim8_tag_options.2.1 "junk;:x;name" (by decide),
   claim8_tag_options.2.2.1 "NAME c;;zzz"⟩

/-! ### Shape of one pullOrPush step on leaf fields -/

/-- For every non-struct destination, one pullOrPush call touches the store
exactly as the provisioning branch dictates: one probe, one conditional put
of the provisioned content, one conditional watch registration — and nothing
else (no child operations). -/
theorem pullOrPush_leaf (o : Opts) (p : String) (t : GoType) (cur : GoValue)
    (tag : Option String) (st : Store) (wl : List WatchItem)
    (h : ∀ fs, t ≠ GoType.tStruct fs) :
    (pullOrPush o p t cur tag st wl).store =
      (if doPutFlag o t (st.getKV p) then st.putKV p (provContent o t tag (st.getKV p)) else st) ∧
    (pullOrPush o p t cur tag st wl).trace =
      (if doPutFlag o t (st.getKV p) then
        [KVEvent.get p (st.getKV p), KVEvent.put p (provContent o t tag (st.getKV p))]
       else [KVEvent.get p (st.getKV p)]) ++
      ((regOf o t p).map (fun it => KVEvent.reg it.path)).toList ∧
    (pullOrPush o p t cur tag st wl).watch = wl ++ (regOf o t p).toList := by
  cases t <;>
    first
    | exact absurd rfl (h _)
    | (simp only [pullOrPush, provContent, wellKnowTypeParsers, wellKnownFn]
       split <;> (try split) <;> simp_all)

/-- The value/error outcome of a well-known field is the outcome of the
registered parser on the provisioned content. -/
theorem pullOrPush_wellKnown_value (o : Opts) (p : String) (w : WellKnown)
    (cur : GoValue) (tag : Option String) (st : Store) (wl : List WatchItem) :
    (∀ v, wellKnownFn w p (provContent o (.tWellKnown w) tag (st.getKV p)) = .ok v →
       (pullOrPush o p (.tWellKnown w) cur tag st wl).value = v ∧
       (pullOrPush o p (.tWellKnown w) cur tag st wl).err = none) ∧
    (∀ e, wellKnownFn w p (provContent o (.tWellKnown w) tag (st.getKV p)) = .error e →
       (pullOrPush o p (.tWellKnown w) cur tag st wl).value = cur ∧
       (pullOrPush o p (.tWellKnown w) cur tag st wl).err = some e) := by
  simp only [pullOrPush, provContent, wellKnowTypeParsers]
  split <;> simp_all

/-! ### C2 — default provisioning probes -/

/-- C2 (amended): with pull-only off, a leaf field's processing issues a Put
if and only if the content fetched at the probe was empty — which is the case
both when the key was absent and when it was present holding an empty value;
a key whose stored value is nonempty is never written. -/
theorem claim2_put_iff_probe_empty (o : Opts) (p : String) (t : GoType) (cur : GoValue)
    (tag : Option String) (st : Store) (wl : List WatchItem)
    (hpull : o.onlyPull = false) (hleaf : putEligible t = true) :
    ((∃ v, KVEvent.put p v ∈ (pullOrPush o p t cur tag st wl).trace) ↔ st.getKV p = "") ∧
    (st.getKV p ≠ "" → (pullOrPush o p t cur tag st wl).store = st) := by
  have hns : ∀ fs, t ≠ GoType.tStruct fs := by
    intro fs heq
    subst heq
    simp [putEligible, wellKnowTypeParsers, GoType.kind] at hleaf
  obtain ⟨hstore, htrace, -⟩ := pullOrPush_leaf o p t cur tag st wl hns
  have hput : doPutFlag o t (st.getKV p) = decide (st.getKV p = "") := by
    simp [doPutFlag, hpull, hleaf]
  constructor
  · constructor
    · rintro ⟨v, hv⟩
      by_contra hne
      rw [htrace, hput] at hv
      rcases hr : regOf o t p with _ | it <;> simp [hr, hne] at hv
    · intro hempty
      refine ⟨provContent o t tag (st.getKV p), ?_⟩
      rw [htrace, hput]
      simp [hempty]
  · intro hne
    rw [hstore, hput]
    simp [hne]

/-- C2 witness: an absent key with a tag default is provisioned. -/
theorem claim2_put_iff_probe_empty_witness :
    (∃ v, KVEvent.put "p" v ∈
      (pullOrPush pushNoListenOpts "p" GoType.tString (GoValue.vString "")
        (some "default:d") [] []).trace) ∧
    Store.getKV ([("q", "x")] : Store) "q" ≠ "" ∧
    (pullOrPush pushNoListenOpts "q" GoType.tString (GoValue.vString "")
        (some "default:d") [("q", "x")] []).store = [("q", "x")] :=
  ⟨(claim2_put_iff_probe_empty pushNoListenOpts "p" GoType.tString (GoValue.vString "")
      (some "default:d") [] [] rfl rfl).1.mpr rfl,
   by decide,
   (claim2_put_iff_probe_empty pushNoListenOpts "q" GoType.tString (GoValue.vString "")
      (some "default:d") [("q", "x")] [] rfl rfl).2 (by decide)⟩

/-- C2 counterexample: the key "p" exists in the store (with an empty value)
at the moment of the probe, yet pullOrPush issues a Put that overwrites it
with the tag default: afterwards the store yields "d" where it yielded "". -/
theorem claim2_counterexample :
    Store.contains [("p", "")] "p" = true ∧
    (pullOrPush pushNoListenOpts "p" GoType.tString (GoValue.vString "")
        (some "default:d") [("p", "")] []).trace =
      [KVEvent.get "p" "", KVEvent.put "p" "d"] ∧
    Store.getKV [("p", "")] "p" = "" ∧
    Store.getKV (pullOrPush pushNoListenOpts "p" GoType.tString (GoValue.vString "")
        (some "default:d") [("p", "")] []).store "p" = "d" :=
  ⟨rfl, rfl, rfl, rfl⟩

/-! ### C4 — well-known types bypass struct recursion -/

/-- C4: a field whose exact type is registered in the well-known registry is
assigned the registered parser's result, and its whole interaction trace is
the probe, the conditional provisioning put and the conditional watch
registration — no operation for any internal field ever appears, even though
the watchable cells and time.Time are struct-shaped. -/
theorem claim4_well_known_no_recursion (o : Opts) (p : String) (w : WellKnown)
    (cur : GoValue) (tag : Option String) (st : Store) (wl : List WatchItem) :
    (∀ v, wellKnownFn w p (provContent o (.tWellKnown w) tag (st.getKV p)) = .ok v →
       (pullOrPush o p (.tWellKnown w) cur tag st wl).value = v ∧
       (pullOrPush o p (.tWellKnown w) cur tag st wl).err = none) ∧
    (pullOrPush o p (.tWellKnown w) cur tag st wl).trace =
      (if doPutFlag o (.tWellKnown w) (st.getKV p) then
        [KVEvent.get p (st.getKV p), KVEvent.put p (provContent o (.tWellKnown w) tag (st.getKV p))]
       else [KVEvent.get p (st.getKV p)]) ++
      ((regOf o (.tWellKnown w) p).map (fun it => KVEvent.reg it.path)).toList ∧
    (pullOrPush o p (.tWellKnown w) cur tag st wl).store =
      (if doPutFlag o (.tWellKnown w) (st.getKV p) then
        st.putKV p (provContent o (.tWellKnown w) tag (st.getKV p)) else st) ∧
    (pullOrPush o p (.tWellKnown w) cur tag st wl).watch =
      wl ++ (regOf o (.tWellKnown w) p).toList := by
  obtain ⟨hstore, htrace, hwatch⟩ :=
    pullOrPush_leaf o p (.tWellKnown w) cur tag st wl (fun fs h => by cases h)
  exact ⟨(pullOrPush_wellKnown_value o p w cur tag st wl).1, htrace, hstore, hwatch⟩

/-- C4 witness: a watchable String cell field on an empty store is assigned
the parsed cell (holding the provisioned empty payload), with exactly the
probe/put/registration trace. -/
theorem claim4_well_known_no_recursion_witness :
    (pullOrPush syncOpts "p" (.tWellKnown .wkString)
      (zeroValue (.tWellKnown .wkString)) none [] []).value =
        GoValue.vStringCell ⟨some ""⟩ ∧
    (pullOrPush syncOpts "p" (.tWellKnown .wkString)
      (zeroValue (.tWellKnown .wkString)) none [] []).trace =
        [KVEvent.get "p" "", KVEvent.put "p" "", KVEvent.reg "p"] :=
  ⟨((claim4_well_known_no_recursion syncOpts "p" .wkString
      (zeroValue (.tWellKnown .wkString)) none [] []).1 _ rfl).1,
   by
     rw [(claim4_well_known_no_recursion syncOpts "p" .wkString
       (zeroValue (.tWellKnown .wkString)) none [] []).2.1]
     rfl⟩

/-! ### C6 — nested records -/

/-- C6 (amended): for a struct-shaped, non-well-known field, pullOrPush
performs no Put and no watch registration at the field's own path and
recurses into the children with the path as the new parent prefix — but it
does perform one store Get at the field's own path (whose content is
discarded) before recursing. -/
theorem claim6_struct_level (o : Opts) (p : String)
    (fs : List (String × String × GoType)) (cur : GoValue)
    (tag : Option String) (st : Store) (wl : List WatchItem) :
    pullOrPush o p (.tStruct fs) cur tag st wl =
      ⟨.vStruct (pullOrPushFields o p fs (curValsOf cur) st wl).values,
       (pullOrPushFields o p fs (curValsOf cur) st wl).store,
       KVEvent.get p (st.getKV p) :: (pullOrPushFields o p fs (curValsOf cur) st wl).trace,
       (pullOrPushFields o p fs (curValsOf cur) st wl).watch,
       (pullOrPushFields o p fs (curValsOf cur) st wl).err⟩ := by
  simp [pullOrPush, doPutFlag, putEligible, wellKnowTypeParsers, GoType.kind,
        regOf, updatableWK]

/-- C6 counterexample: the nested record S mounted under root r — the engine
issues a store Get at S's own path r/S (the claim says no Get happens at that
level). -/
theorem claim6_counterexample :
    KVEvent.get "r/S" "" ∈
      (pullOrPush syncOpts "r"
        (.tStruct [("S", "", .tStruct [("X", "", .tString)])])
        (.vStruct [.vStruct [.vString ""]]) none [] []).trace := by
  rw [show (pullOrPush syncOpts "r"
        (.tStruct [("S", "", .tStruct [("X", "", .tString)])])
        (.vStruct [.vStruct [.vString ""]]) none [] []).trace =
      [KVEvent.get "r" "", KVEvent.get "r/S" "",
       KVEvent.get "r/S/X" "", KVEvent.put "r/S/X" ""] from rfl]
  simp

/-! ### Shape of one pullOrPush step on struct fields, and the default-parser
branch outcome -/

/-- A struct-shaped, non-well-known destination: pullOrPush probes the path
(discarding the content), performs no put and no registration at this level,
and otherwise just runs the field loop under the path as parent prefix. -/
theorem pullOrPush_struct (o : Opts) (p : String)
    (fs : List (String × String × GoType)) (cur : GoValue)
    (tag : Option String) (st : Store) (wl : List WatchItem) :
    pullOrPush o p (.tStruct fs) cur tag st wl =
      ⟨.vStruct (pullOrPushFields o p fs (curValsOf cur) st wl).values,
       (pullOrPushFields o p fs (curValsOf cur) st wl).store,
       KVEvent.get p (st.getKV p) :: (pullOrPushFields o p fs (curValsOf cur) st wl).trace,
       (pullOrPushFields o p fs (curValsOf cur) st wl).watch,
       (pullOrPushFields o p fs (curValsOf cur) st wl).err⟩ := by
  simp [pullOrPush, doPutFlag, putEligible, wellKnowTypeParsers, GoType.kind,
        regOf, updatableWK]

/-- The value/error outcome of a plain (non-struct, unregistered) leaf is the
outcome of defaultParser on the provisioned content, subject to the
reflective assignability of the parsed interface value. -/
theorem pullOrPush_default_value (o : Opts) (p : String) (t : GoType) (cur : GoValue)
    (tag : Option String) (st : Store) (wl : List WatchItem)
    (hns : ∀ fs, t ≠ GoType.tStruct fs) (hwk : wellKnowTypeParsers t = none) :
    (∀ v, defaultParser t (provContent o t tag (st.getKV p)) = .ok v →
       (assignable t v = true →
          (pullOrPush o p t cur tag st wl).value = v ∧
          (pullOrPush o p t cur tag st wl).err = none) ∧
       (assignable t v = false →
          (pullOrPush o p t cur tag st wl).value = cur ∧
          (pullOrPush o p t cur tag st wl).err = some "reflect: Set of inassignable value")) ∧
    (∀ e, defaultParser t (provContent o t tag (st.getKV p)) = .error e →
       (pullOrPush o p t cur tag st wl).value = cur ∧
       (pullOrPush o p t cur tag st wl).err = some e) := by
  cases t <;>
    first
    | exact absurd rfl (hns _)
    | (simp [wellKnowTypeParsers] at hwk
       done)
    | (simp only [pullOrPush, provContent, wellKnowTypeParsers]
       split <;> (try split) <;> simp_all)

/-- defaultParser coerces empty content to the typed zero value on every
scalar kind except Bool and Uint64, and that zero value is assignable. -/
theorem defaultParser_empty_scalar (t : GoType) (h : scalarEmptyZero t = true) :
    defaultParser t "" = .ok (zeroValue t) ∧ assignable t (zeroValue t) = true := by
  cases t <;> first
    | exact ⟨rfl, rfl⟩
    | simp [scalarEmptyZero] at h

/-- One pull-only leaf step on a store probing empty: no error, zero value,
store untouched. -/
theorem pullOnlyZero_leaf (o : Opts) (p : String) (t : GoType) (cur : GoValue)
    (tag : Option String) (st : Store) (wl : List WatchItem)
    (h1 : o.onlyPull = true) (hsc : scalarEmptyZero t = true)
    (hc : Store.getKV st p = "") :
    (pullOrPush o p t cur tag st wl).err = none ∧
    (pullOrPush o p t cur tag st wl).value = zeroValue t ∧
    (pullOrPush o p t cur tag st wl).store = st := by
  have hns : ∀ fs, t ≠ GoType.tStruct fs := by
    intro fs he
    subst he
    simp [scalarEmptyZero] at hsc
  have hwk : wellKnowTypeParsers t = none := by
    cases t <;> simp_all [scalarEmptyZero, wellKnowTypeParsers]
  have hdp : doPutFlag o t (st.getKV p) = false := by simp [doPutFlag, h1]
  have hcontent : provContent o t tag (st.getKV p) = "" := by
    unfold provContent
    rw [hdp]
    simp [hc]
  have hde := defaultParser_empty_scalar t hsc
  have hval :=
    ((pullOrPush_default_value o p t cur tag st wl hns hwk).1 (zeroValue t)
      (by rw [hcontent]; exact hde.1)).1 hde.2
  have hsh := pullOrPush_leaf o p t cur tag st wl hns
  refine ⟨hval.2, hval.1, ?_⟩
  rw [hsh.1, hdp]
  simp

mutual
/-- Pull-only sync against a store whose every probe yields empty: no error,
every field ends at its zero value, the store is untouched — for schemas
within emptyPullSafe. -/
theorem pullOnlyZero_pullOrPush (o : Opts) (p : String) (t : GoType) (cur : GoValue)
    (tag : Option String) (st : Store) (wl : List WatchItem)
    (h1 : o.onlyPull = true) (h2 : emptyPullSafe t = true)
    (hst : ∀ q, Store.getKV st q = "") :
    (pullOrPush o p t cur tag st wl).err = none ∧
    (pullOrPush o p t cur tag st wl).value = zeroValue t ∧
    (pullOrPush o p t cur tag st wl).store = st := by
  cases t with
  | tStruct fs =>
    rw [pullOrPush_struct]
    have h2f : emptyPullSafeFields fs = true := by simpa [emptyPullSafe] using h2
    obtain ⟨he, hv, hs⟩ :=
      pullOnlyZero_fields o p fs (curValsOf cur) st wl h1 h2f hst
    exact ⟨he, by simp [zeroValue, hv], hs⟩
  | tString => exact pullOnlyZero_leaf o p _ cur tag st wl h1 rfl (hst p)
  | tBool => simp [emptyPullSafe] at h2
  | tFloat32 => exact pullOnlyZero_leaf o p _ cur tag st wl h1 rfl (hst p)
  | tFloat64 => exact pullOnlyZero_leaf o p _ cur tag st wl h1 rfl (hst p)
  | tInt => exact pullOnlyZero_leaf o p _ cur tag st wl h1 rfl (hst p)
  | tInt16 => exact pullOnlyZero_leaf o p _ cur tag st wl h1 rfl (hst p)
  | tInt32 => exact pullOnlyZero_leaf o p _ cur tag st wl h1 rfl (hst p)
  | tInt64 => exact pullOnlyZero_leaf o p _ cur tag st wl h1 rfl (hst p)
  | tUInt => exact pullOnlyZero_leaf o p _ cur tag st wl h1 rfl (hst p)
  | tUInt32 => exact pullOnlyZero_leaf o p _ cur tag st wl h1 rfl (hst p)
  | tUInt64 => simp [emptyPullSafe] at h2
  | tByteSlice => exact pullOnlyZero_leaf o p _ cur tag st wl h1 rfl (hst p)
  | tWellKnown w => simp [emptyPullSafe] at h2

theorem pullOnlyZero_fields (o : Opts) (parent : String)
    (fs : List (String × String × GoType)) (curs : List GoValue)
    (st : Store) (wl : List WatchItem)
    (h1 : o.onlyPull = true) (h2 : emptyPullSafeFields fs = true)
    (hst : ∀ q, Store.getKV st q = "") :
    (pullOrPushFields o parent fs curs st wl).err = none ∧
    (pullOrPushFields o parent fs curs st wl).values = zeroValues fs ∧
    (pullOrPushFields o parent fs curs st wl).store = st := by
  match fs with
  | [] => exact ⟨rfl, rfl, rfl⟩
  | (fname, ftag, ftype) :: rest =>
    have h2h : emptyPullSafe ftype = true := by
      simp [emptyPullSafeFields] at h2
      exact h2.1
    have h2r : emptyPullSafeFields rest = true := by
      simp [emptyPullSafeFields] at h2
      exact h2.2
    have hchild :=
      pullOnlyZero_pullOrPush o (makeConsulPath o parent fname ftag) ftype
        (curs.headD (zeroValue ftype)) (some ftag) st wl h1 h2h hst
    have hrest :=
      pullOnlyZero_fields o parent rest curs.tail
        (pullOrPush o (makeConsulPath o parent fname ftag) ftype
          (curs.headD (zeroValue ftype)) (some ftag) st wl).store
        (pullOrPush o (makeConsulPath o parent fname ftag) ftype
          (curs.headD (zeroValue ftype)) (some ftag) st wl).watch
        h1 h2r (by rw [hchild.2.2]; exact hst)
    rw [List.headD_eq_head?] at hchild hrest
    simp only [pullOrPushFields, List.headD_eq_head?]
    rw [hchild.1]
    simp only
    refine ⟨hrest.1, ?_, by rw [hrest.2.2, hchild.2.2]⟩
    simp [zeroValues, hchild.2.1, hrest.2.1]
end

mutual
/-- With pull-only on, no pullOrPush run ever emits a Put, whatever the
schema and the store. -/
theorem noPut_pullOrPush (o : Opts) (p : String) (t : GoType) (cur : GoValue)
    (tag : Option String) (st : Store) (wl : List WatchItem)
    (h : o.onlyPull = true) (p2 v : String) :
    KVEvent.put p2 v ∉ (pullOrPush o p t cur tag st wl).trace := by
  have hdp : doPutFlag o t (st.getKV p) = false := by simp [doPutFlag, h]
  cases t with
  | tStruct fs =>
    rw [pullOrPush_struct]
    intro hmem
    rcases List.mem_cons.mp hmem with h1 | h1
    · exact KVEvent.noConfusion h1
    · exact noPut_fields o p fs (curValsOf cur) st wl h p2 v h1
  | tString =>
    obtain ⟨-, htrace, -⟩ :=
      pullOrPush_leaf o p GoType.tString cur tag st wl (fun fs h2 => by cases h2)
    rw [htrace, hdp]
    rcases hreg : regOf o GoType.tString p with _ | it <;> simp [hreg]
  | tBool =>
    obtain ⟨-, htrace, -⟩ :=
      pullOrPush_leaf o p GoType.tBool cur tag st wl (fun fs h2 => by cases h2)
    rw [htrace, hdp]
    rcases hreg : regOf o GoType.tBool p with _ | it <;> simp [hreg]
  | tFloat32 =>
    obtain ⟨-, htrace, -⟩ :=
      pullOrPush_leaf o p GoType.tFloat32 cur tag st wl (fun fs h2 => by cases h2)
    rw [htrace, hdp]
    rcases hreg : regOf o GoType.tFloat32 p with _ | it <;> simp [hreg]
  | tFloat64 =>
    obtain ⟨-, htrace, -⟩ :=
      pullOrPush_leaf o p GoType.tFloat64 cur tag st wl (fun fs h2 => by cases h2)
    rw [htrace, hdp]
    rcases hreg : regOf o GoType.tFloat64 p with _ | it <;> simp [hreg]
  | tInt =>
    obtain ⟨-, htrace, -⟩ :=
      pullOrPush_leaf o p GoType.tInt cur tag st wl (fun fs h2 => by cases h2)
    rw [htrace, hdp]
    rcases hreg : regOf o GoType.tInt p with _ | it <;> simp [hreg]
  | tInt16 =>
    obtain ⟨-, htrace, -⟩ :=
      pullOrPush_leaf o p GoType.tInt16 cur tag st wl (fun fs h2 => by cases h2)
    rw [htrace, hdp]
    rcases hreg : regOf o GoType.tInt16 p with _ | it <;> simp [hreg]
  | tInt32 =>
    obtain ⟨-, htrace, -⟩ :=
      pullOrPush_leaf o p GoType.tInt32 cur tag st wl (fun fs h2 => by cases h2)
    rw [htrace, hdp]
    rcases hreg : regOf o GoType.tInt32 p with _ | it <;> simp [hreg]
  | tInt64 =>
    obtain ⟨-, htrace, -⟩ :=
      pullOrPush_leaf o p GoType.tInt64 cur tag st wl (fun fs h2 => by cases h2)
    rw [htrace, hdp]
    rcases hreg : regOf o GoType.tInt64 p with _ | it <;> simp [hreg]
  | tUInt =>
    obtain ⟨-, htrace, -⟩ :=
      pullOrPush_leaf o p GoType.tUInt cur tag st wl (fun fs h2 => by cases h2)
    rw [htrace, hdp]
    rcases hreg : regOf o GoType.tUInt p with _ | it <;> simp [hreg]
  | tUInt32 =>
    obtain ⟨-, htrace, -⟩ :=
      pullOrPush_leaf o p GoType.tUInt32 cur tag st wl (fun fs h2 => by cases h2)
    rw [htrace, hdp]
    rcases hreg : regOf o GoType.tUInt32 p with _ | it <;> simp [hreg]
  | tUInt64 =>
    obtain ⟨-, htrace, -⟩ :=
      pullOrPush_leaf o p GoType.tUInt64 cur tag st wl (fun fs h2 => by cases h2)
    rw [htrace, hdp]
    rcases hreg : regOf o GoType.tUInt64 p with _ | it <;> simp [hreg]
  | tByteSlice =>
    obtain ⟨-, htrace, -⟩ :=
      pullOrPush_leaf o p GoType.tByteSlice cur tag st wl (fun fs h2 => by cases h2)
    rw [htrace, hdp]
    rcases hreg : regOf o GoType.tByteSlice p with _ | it <;> simp [hreg]
  | tWellKnown w =>
    obtain ⟨-, htrace, -⟩ :=
      pullOrPush_leaf o p (GoType.tWellKnown w) cur tag st wl (fun fs h2 => by cases h2)
    rw [htrace, hdp]
    rcases hreg : regOf o (GoType.tWellKnown w) p with _ | it <;> simp [hreg]

theorem noPut_fields (o : Opts) (parent : String)
    (fs : List (String × String × GoType)) (curs : List GoValue)
    (st : Store) (wl : List WatchItem)
    (h : o.onlyPull = true) (p2 v : String) :
    KVEvent.put p2 v ∉ (pullOrPushFields o parent fs curs st wl).trace := by
  match fs with
  | [] => simp [pullOrPushFields]
  | (fname, ftag, ftype) :: rest =>
    simp only [pullOrPushFields]
    split
    · exact noPut_pullOrPush o (makeConsulPath o parent fname ftag) ftype
        (curs.headD (zeroValue ftype)) (some ftag) st wl h p2 v
    · intro hmem
      rcases List.mem_append.mp hmem with h1 | h1
      · exact noPut_pullOrPush o (makeConsulPath o parent fname ftag) ftype
          (curs.headD (zeroValue ftype)) (some ftag) st wl h p2 v h1
      · exact noPut_fields o parent rest curs.tail _ _ h p2 v h1
end

/-- On a leaf, what pullOrPush appends to the watch list is exactly the
registration its trace records. -/
theorem watch_append_leaf (o : Opts) (p : String) (t : GoType) (cur : GoValue)
    (tag : Option String) (st : Store) (wl : List WatchItem)
    (hns : ∀ fs, t ≠ GoType.tStruct fs) :
    (pullOrPush o p t cur tag st wl).watch = wl ++ (regOf o t p).toList ∧
    ((regOf o t p).toList.map WatchItem.path) =
      tracedRegs (pullOrPush o p t cur tag st wl).trace := by
  obtain ⟨-, htrace, hwatch⟩ := pullOrPush_leaf o p t cur tag st wl hns
  refine ⟨hwatch, ?_⟩
  rw [htrace]
  rcases hreg : regOf o t p with _ | it <;>
    cases hdp : doPutFlag o t (st.getKV p) <;>
      simp [hreg, hdp, tracedRegs]

mutual
/-- Whatever happens inside a pullOrPush run — including an error abort —
the resulting watch list is the input list extended, in order, by exactly the
registrations the trace records; nothing is ever removed. -/
theorem watch_append_pullOrPush (o : Opts) (p : String) (t : GoType) (cur : GoValue)
    (tag : Option String) (st : Store) (wl : List WatchItem) :
    ∃ ext, (pullOrPush o p t cur tag st wl).watch = wl ++ ext ∧
      ext.map WatchItem.path = tracedRegs (pullOrPush o p t cur tag st wl).trace := by
  cases t with
  | tStruct fs =>
    rw [pullOrPush_struct]
    obtain ⟨ext, hw, hm⟩ := watch_append_fields o p fs (curValsOf cur) st wl
    exact ⟨ext, hw, by simpa [tracedRegs] using hm⟩
  | tString => exact ⟨_, watch_append_leaf o p _ cur tag st wl (fun fs h2 => by cases h2)⟩
  | tBool => exact ⟨_, watch_append_leaf o p _ cur tag st wl (fun fs h2 => by cases h2)⟩
  | tFloat32 => exact ⟨_, watch_append_leaf o p _ cur tag st wl (fun fs h2 => by cases h2)⟩
  | tFloat64 => exact ⟨_, watch_append_leaf o p _ cur tag st wl (fun fs h2 => by cases h2)⟩
  | tInt => exact ⟨_, watch_append_leaf o p _ cur tag st wl (fun fs h2 => by cases h2)⟩
  | tInt16 => exact ⟨_, watch_append_leaf o p _ cur tag st wl (fun fs h2 => by cases h2)⟩
  | tInt32 => exact ⟨_, watch_append_leaf o p _ cur tag st wl (fun fs h2 => by cases h2)⟩
  | tInt64 => exact ⟨_, watch_append_leaf o p _ cur tag st wl (fun fs h2 => by cases h2)⟩
  | tUInt => exact ⟨_, watch_append_leaf o p _ cur tag st wl (fun fs h2 => by cases h2)⟩
  | tUInt32 => exact ⟨_, watch_append_leaf o p _ cur tag st wl (fun fs h2 => by cases h2)⟩
  | tUInt64 => exact ⟨_, watch_append_leaf o p _ cur tag st wl (fun fs h2 => by cases h2)⟩
  | tByteSlice => exact ⟨_, watch_append_leaf o p _ cur tag st wl (fun fs h2 => by cases h2)⟩
  | tWellKnown w => exact ⟨_, watch_append_leaf o p _ cur tag st wl (fun fs h2 => by cases h2)⟩

theorem watch_append_fields (o : Opts) (parent : String)
    (fs : List (String × String × GoType)) (curs : List GoValue)
    (st : Store) (wl : List WatchItem) :
    ∃ ext, (pullOrPushFields o parent fs curs st wl).watch = wl ++ ext ∧
      ext.map WatchItem.path = tracedRegs (pullOrPushFields o parent fs curs st wl).trace := by
  match fs with
  | [] => exact ⟨[], by simp [pullOrPushFields], by simp [pullOrPushFields, tracedRegs]⟩
  | (fname, ftag, ftype) :: rest =>
    obtain ⟨ext1, hw1, hm1⟩ :=
      watch_append_pullOrPush o (makeConsulPath o parent fname ftag) ftype
        (curs.headD (zeroValue ftype)) (some ftag) st wl
    obtain ⟨ext2, hw2, hm2⟩ :=
      watch_append_fields o parent rest curs.tail
        (pullOrPush o (makeConsulPath o parent fname ftag) ftype
          (curs.headD (zeroValue ftype)) (some ftag) st wl).store
        (pullOrPush o (makeConsulPath o parent fname ftag) ftype
          (curs.headD (zeroValue ftype)) (some ftag) st wl).watch
    simp only [pullOrPushFields]
    split
    · exact ⟨ext1, hw1, hm1⟩
    · refine ⟨ext1 ++ ext2, ?_, ?_⟩
      · rw [hw2, hw1, List.append_assoc]
      · rw [List.map_append, hm1, hm2, tracedRegs, tracedRegs, tracedRegs,
          List.filterMap_append]
end

/-! ### C3 — pull-only mode -/

/-- C3 (amended): with pull-only on, a Sync run issues zero Puts for every
schema and every store; and against an empty store it returns no error and
leaves every field at its type's zero value, for every schema whose leaves
are the scalar kinds that coerce empty content to zero (all scalars except
boolean and uint64; a boolean leaf makes the run fail instead, and well-known
leaves feed the empty payload to their own parsers). -/
theorem claim3_pull_only_sync :
    (∀ o p t cur tag st wl p2 v, o.onlyPull = true →
       KVEvent.put p2 v ∉ (pullOrPush o p t cur tag st wl).trace) ∧
    (∀ o p t cur tag wl, o.onlyPull = true → emptyPullSafe t = true →
       (pullOrPush o p t cur tag [] wl).err = none ∧
       (pullOrPush o p t cur tag [] wl).value = zeroValue t ∧
       (pullOrPush o p t cur tag [] wl).store = []) :=
  ⟨fun o p t cur tag st wl p2 v h => noPut_pullOrPush o p t cur tag st wl h p2 v,
   fun o p t cur tag wl h1 h2 =>
     pullOnlyZero_pullOrPush o p t cur tag [] wl h1 h2 (fun _ => rfl)⟩

/-- C3 witness: a two-field record pulled from an empty store in pull-only
mode comes back zero-valued with no error, and the trace has no put. -/
theorem claim3_pull_only_sync_witness :
    (pullOrPush pullOnlyOpts "p"
      (.tStruct [("A", "", .tInt), ("B", "", .tString)])
      (.vStruct [.vInt 5, .vString "q"]) none [] []).err = none ∧
    (pullOrPush pullOnlyOpts "p"
      (.tStruct [("A", "", .tInt), ("B", "", .tString)])
      (.vStruct [.vInt 5, .vString "q"]) none [] []).value =
        zeroValue (.tStruct [("A", "", .tInt), ("B", "", .tString)]) ∧
    KVEvent.put "p/A" "" ∉
      (pullOrPush pullOnlyOpts "p"
        (.tStruct [("A", "", .tInt), ("B", "", .tString)])
        (.vStruct [.vInt 5, .vString "q"]) none [] []).trace :=
  ⟨(claim3_pull_only_sync.2 pullOnlyOpts "p"
      (.tStruct [("A", "", .tInt), ("B", "", .tString)])
      (.vStruct [.vInt 5, .vString "q"]) none [] rfl rfl).1,
   (claim3_pull_only_sync.2 pullOnlyOpts "p"
      (.tStruct [("A", "", .tInt), ("B", "", .tString)])
      (.vStruct [.vInt 5, .vString "q"]) none [] rfl rfl).2.1,
   claim3_pull_only_sync.1 pullOnlyOpts "p"
      (.tStruct [("A", "", .tInt), ("B", "", .tString)])
      (.vStruct [.vInt 5, .vString "q"]) none [] [] "p/A" "" rfl⟩

/-- C3 counterexample: a schema consisting of one boolean leaf, pulled from
the empty store with pullOnly on, returns a parse error rather than no error
("" is handed to ParseBool). -/
theorem claim3_counterexample :
    (pullOrPush pullOnlyOpts "p" GoType.tBool (GoValue.vBool false) none [] []).err =
      some "strconv.ParseBool: parsing : invalid syntax" := rfl

/-! ### C10 — registrations survive a failed sync -/

/-- C10: when a pullOrPush run returns an error, the watch list it leaves
behind is the input list extended in order by every registration the run
performed (recorded in the trace) — no registration is rolled back. -/
theorem claim10_watch_survives_error (o : Opts) (p : String) (t : GoType)
    (cur : GoValue) (tag : Option String) (st : Store) (wl : List WatchItem)
    (e : String)
    (herr : (pullOrPush o p t cur tag st wl).err = some e) :
    List.IsPrefix wl (pullOrPush o p t cur tag st wl).watch ∧
    (pullOrPush o p t cur tag st wl).watch.map WatchItem.path =
      wl.map WatchItem.path ++ tracedRegs (pullOrPush o p t cur tag st wl).trace := by
  obtain ⟨ext, hw, hm⟩ := watch_append_pullOrPush o p t cur tag st wl
  exact ⟨⟨ext, hw.symm⟩, by rw [hw, List.map_append, hm]⟩

/-- C10 witness: a watchable Duration field whose stored bytes do not parse —
the sync fails, yet the item registered for it (just before the parse) is in
the final watch list, after the pre-existing item. -/
theorem claim10_watch_survives_error_witness :
    (pullOrPush syncOpts "p" (.tWellKnown .wkDuration)
      (zeroValue (.tWellKnown .wkDuration)) none [("p", "zzz")]
      [⟨"w0", .wkString⟩]).err = some "time: invalid duration" ∧
    List.IsPrefix [WatchItem.mk "w0" .wkString]
      (pullOrPush syncOpts "p" (.tWellKnown .wkDuration)
        (zeroValue (.tWellKnown .wkDuration)) none [("p", "zzz")]
        [⟨"w0", .wkString⟩]).watch ∧
    (pullOrPush syncOpts "p" (.tWellKnown .wkDuration)
      (zeroValue (.tWellKnown .wkDuration)) none [("p", "zzz")]
      [⟨"w0", .wkString⟩]).watch.map WatchItem.path =
      ["w0"] ++ tracedRegs (pullOrPush syncOpts "p" (.tWellKnown .wkDuration)
        (zeroValue (.tWellKnown .wkDuration)) none [("p", "zzz")]
        [⟨"w0", .wkString⟩]).trace :=
  ⟨rfl,
   (claim10_watch_survives_error syncOpts "p" (.tWellKnown .wkDuration)
     (zeroValue (.tWellKnown .wkDuration)) none [("p", "zzz")]
     [⟨"w0", .wkString⟩] "time: invalid duration" rfl).1,
   (claim10_watch_survives_error syncOpts "p" (.tWellKnown .wkDuration)
     (zeroValue (.tWellKnown .wkDuration)) none [("p", "zzz")]
     [⟨"w0", .wkString⟩] "time: invalid duration" rfl).2⟩

/-! ### C5 — one refresh pass -/

/-- The refresher step never changes an item's path. -/
theorem updateWatchStep_path (kv : KVFun) (it : RefreshItem) :
    (updateWatchStep kv it).1.path = it.path := by
  unfold updateWatchStep
  split
  · rfl
  · split <;> rfl

/-- C5: a refresh pass processes every item of the watch list independently
and in order — the result is the item-wise step applied to the whole list,
the logs are the concatenated per-item reports, and every path survives the
pass (no item is ever dropped); a failing Get leaves the item untouched and
reports (path, error) to the sink, and a failing Update likewise reports to
the sink.  updateWatch returns no error to any caller. -/
theorem claim5_refresh_pass_isolation :
    (∀ kv l, (updateWatch kv l).1 = l.map (fun it => (updateWatchStep kv it).1) ∧
       (updateWatch kv l).2 = (l.map (fun it => (updateWatchStep kv it).2)).flatten ∧
       (updateWatch kv l).1.map RefreshItem.path = l.map RefreshItem.path) ∧
    (∀ kv it e, kv it.path = .error e →
       updateWatchStep kv it = (it, [(it.path, e)])) ∧
    (∀ kv it raw c2 e, kv it.path = .ok raw → it.target.update raw = (c2, some e) →
       updateWatchStep kv it = (⟨it.path, c2⟩, [(it.path, e)])) := by
  refine ⟨?_, ?_, ?_⟩
  · intro kv l
    induction l with
    | nil => exact ⟨rfl, rfl, rfl⟩
    | cons it rest ih =>
      refine ⟨?_, ?_, ?_⟩
      · simp [updateWatch, ih.1]
      · simp [updateWatch, ih.2.1]
      · simp [updateWatch, ih.1, updateWatchStep_path, Function.comp]
  · intro kv it e h
    simp [updateWatchStep, h]
  · intro kv it raw c2 e h1 h2
    simp [updateWatchStep, h1, h2]

/-- C5 witness: with item a failing on the store get and item b succeeding,
the pass keeps both items (paths unchanged), logs a's failure, and updates b. -/
theorem claim5_refresh_pass_isolation_witness :
    (updateWatch demoKV demoItems).1.map RefreshItem.path = ["a", "b"] ∧
    updateWatchStep demoKV ⟨"a", .cDuration ⟨none⟩⟩ =
      (⟨"a", .cDuration ⟨none⟩⟩, [("a", "boom")]) ∧
    (updateWatch demoKV demoItems).1 =
      [⟨"a", .cDuration ⟨none⟩⟩, ⟨"b", .cDuration ⟨some 5000000000⟩⟩] :=
  ⟨by
     rw [(claim5_refresh_pass_isolation.1 demoKV demoItems).2.2]
     rfl,
   claim5_refresh_pass_isolation.2.1 demoKV ⟨"a", .cDuration ⟨none⟩⟩ "boom" rfl,
   by
     rw [(claim5_refresh_pass_isolation.1 demoKV demoItems).1]
     rfl⟩

end ConsulSpec
